import Mathlib

/-!
Shallow embedding of the transaction controller (the TransactionController of
this repository together with its BaseController host) used to check the
specification claims C1 to C10.

Conventions of the embedding:
- JavaScript strings are Lean String values; all addresses, hashes and hex
  quantities handled by the controller are ASCII, so toLowerCase is modelled
  for ASCII letters only.
- JavaScript numbers and big numbers (BN) are modelled as Nat in the exact
  integer range of the JavaScript number pipeline; parseInt of a decimal
  rendering of x * 1.5 or x * 1.1 is floor in that range and is modelled as
  floor, and the bn.js muln calls with the fractional constants 0.9 and 1.5
  equal floor(n * 9 / 10) and floor(n * 3 / 2) on single-word (below 2 ^ 26)
  values, which covers every realistic gas quantity; they are modelled as
  those floors.
- undefined option fields are Option.none; JavaScript strict equality on
  possibly-undefined strings is BEq on Option String.
- asynchronous node queries are parameterised as oracle inputs, and fallible
  steps are modelled with Except.
-/

/-- Numeric value of an ASCII hex digit, as accepted by parseInt with radix 16. -/
def hexDigitVal (c : Char) : Option Nat :=
  if 48 ≤ c.toNat ∧ c.toNat ≤ 57 then some (c.toNat - 48)
  else if 97 ≤ c.toNat ∧ c.toNat ≤ 102 then some (c.toNat - 87)
  else if 65 ≤ c.toNat ∧ c.toNat ≤ 70 then some (c.toNat - 55)
  else none

/-- Numeric value of an ASCII decimal digit. -/
def decDigitVal (c : Char) : Option Nat :=
  if 48 ≤ c.toNat ∧ c.toNat ≤ 57 then some (c.toNat - 48) else none

/-- Accumulating hex parse that stops at the first character that is not a hex
digit, exactly as parseInt with radix 16 does. -/
def parseHexDigits : List Char → Nat → Nat
  | [], acc => acc
  | c :: cs, acc =>
    match hexDigitVal c with
    | some v => parseHexDigits cs (acc * 16 + v)
    | none => acc

/-- Accumulating decimal parse that stops at the first non-digit, as parseInt
with radix 10 does on the digit strings this controller produces. -/
def parseDecDigits : List Char → Nat → Nat
  | [], acc => acc
  | c :: cs, acc =>
    match decDigitVal c with
    | some v => parseDecDigits cs (acc * 16 + v)
    | none => acc

/-- Lowercase hex digit character, as produced by Number.prototype.toString
with radix 16 and by BN.prototype.toString with radix 16. -/
def hexDigitChar (d : Nat) : Char :=
  if d = 0 then '0' else if d = 1 then '1' else if d = 2 then '2'
  else if d = 3 then '3' else if d = 4 then '4' else if d = 5 then '5'
  else if d = 6 then '6' else if d = 7 then '7' else if d = 8 then '8'
  else if d = 9 then '9' else if d = 10 then 'a' else if d = 11 then 'b'
  else if d = 12 then 'c' else if d = 13 then 'd' else if d = 14 then 'e'
  else 'f'

/-- Little-endian base-16 digit list of n, with explicit fuel so that the
definition is structural and evaluates in the kernel. -/
def hexDigitsRevFuel : Nat → Nat → List Nat
  | 0, _ => []
  | fuel + 1, n => if n = 0 then [] else n % 16 :: hexDigitsRevFuel fuel (n / 16)

/-- Value of a little-endian base-16 digit list. -/
def ofRevHex (ds : List Nat) : Nat := ds.foldr (fun d acc => acc * 16 + d) 0

/-- Character list of the hex rendering of n; renders 0 as the single digit 0,
matching toString with radix 16. -/
def natToHexChars (n : Nat) : List Char :=
  match (hexDigitsRevFuel n n).reverse.map hexDigitChar with
  | [] => ['0']
  | cs => cs

/-- Hex rendering of a Nat without a 0x marker, as toString with radix 16. -/
def natToHexStr (n : Nat) : String := String.mk (natToHexChars n)

/-- Whether a character list begins with the two characters 0x. -/
def isHexPrefixed (cs : List Char) : Bool :=
  match cs with
  | a :: b :: _ => a == '0' && b == 'x'
  | _ => false

/-- Model of addHexPrefix from ethereumjs-util: prepend 0x unless the string
already begins with 0x. -/
def addHexPfx (s : String) : String :=
  if isHexPrefixed s.data then s else String.mk ('0' :: 'x' :: s.data)

/-- Drop a leading 0x marker if present. All hex strings this controller
builds use the lowercase 0x marker. -/
def stripHexPfx (cs : List Char) : List Char :=
  match cs with
  | a :: b :: rest => if a == '0' && b == 'x' then rest else a :: b :: rest
  | cs => cs

/-- Model of parseInt(s, 16) on the well-formed hex strings this controller
manipulates: an optional 0x marker followed by hex digits; parsing stops at
the first invalid character and an empty digit run is modelled as 0. -/
def jsParseIntHex (s : String) : Nat := parseHexDigits (stripHexPfx s.data) 0

/-- Model of parseInt(s, 10) on plain digit strings. -/
def jsParseDec (s : String) : Nat := parseDecDigits s.data 0

/-- Model of Number(s) on the strings this controller meets: empty gives 0, a
digit string gives its value, anything else is NaN, modelled as none. -/
def jsNumber (s : String) : Option Nat :=
  if s.data = [] then some 0
  else if s.data.all (fun c => (decDigitVal c).isSome) then some (parseDecDigits s.data 0)
  else none

/-- Model of the JavaScript comparison x < k where x may be NaN: a NaN
comparison is false. -/
def jsNumberLt (x : Option Nat) (k : Nat) : Bool :=
  match x with
  | some n => decide (n < k)
  | none => false

/-- Truthiness of a possibly-undefined string: undefined and the empty string
are falsy. -/
def jsTruthyStrOpt (s : Option String) : Bool :=
  match s with
  | none => false
  | some v => v != ""

/-- Falsiness of a possibly-undefined string. -/
def jsFalsyStrOpt (s : Option String) : Bool := !(jsTruthyStrOpt s)

/-- ASCII lowercase of one character, modelling toLowerCase for the ASCII
strings this controller compares. -/
def jsToLowerChar (c : Char) : Char :=
  if 65 ≤ c.toNat ∧ c.toNat ≤ 90 then Char.ofNat (c.toNat + 32) else c

/-- ASCII lowercase of a string, modelling String.prototype.toLowerCase for
the ASCII addresses this controller compares. -/
def jsToLower (s : String) : String := String.mk (s.data.map jsToLowerChar)

/-- Lifecycle states of a transaction record, from the TransactionStatus enum. -/
inductive TransactionStatus where
  | approved
  | cancelled
  | confirmed
  | failed
  | rejected
  | signed
  | cancelSubmitted
  | accelerateSubmitted
  | submitted
  | receiving
  | unapproved
  deriving DecidableEq, Repr

/-- Token transfer metadata attached to token-movement records. -/
structure TransferInformation where
  symbol : String := ""
  contractAddress : String := ""
  decimals : Nat := 0
  deriving DecidableEq, Repr

/-- The underlying transaction fields of a record (the Transaction interface).
The source fields named from and to are rendered fromAddr and toAddr because
both words are reserved in Lean. The gasLimit field mirrors the gasLimit key
that the fee-bump operations store on the replacement transaction object. -/
structure TxTransaction where
  chainId : Option Nat := none
  data : Option String := none
  fromAddr : String := ""
  gas : Option String := none
  gasLimit : Option String := none
  gasPrice : Option String := none
  nonce : Option String := none
  toAddr : Option String := none
  value : Option String := none
  deriving DecidableEq, Repr

/-- A transaction record (TransactionMeta). The source expresses the error
field through a union keyed on status; here it is an optional message that the
failure paths set together with the failed status. -/
structure TransactionMeta where
  isTokenTx : Option Bool := none
  transferInformation : Option TransferInformation := none
  id : String := ""
  networkID : Option String := none
  chainId : Option String := none
  origin : Option String := none
  rawTransaction : Option String := none
  time : Nat := 0
  toSmartContract : Option Bool := none
  fromSmartContract : Option Bool := none
  transaction : TxTransaction := {}
  transactionHash : Option String := none
  blockNumber : Option String := none
  confirmations : Option String := none
  amount : Option String := none
  status : TransactionStatus := TransactionStatus.unapproved
  error : Option String := none
  deriving DecidableEq, Repr

/-- A remote history entry as returned by the block-explorer feed (the
EtherscanTransactionMeta interface); from and to are rendered fromAddr and
toAddr. -/
structure EtherscanTransactionMeta where
  blockNumber : String := ""
  timeStamp : String := ""
  hash : String := ""
  nonce : String := ""
  blockHash : String := ""
  transactionIndex : String := ""
  fromAddr : String := ""
  toAddr : String := ""
  value : String := ""
  gas : String := ""
  gasPrice : String := ""
  isError : String := ""
  txreceipt_status : String := ""
  input : String := ""
  contractAddress : String := ""
  cumulativeGasUsed : String := ""
  gasUsed : String := ""
  confirmations : String := ""
  tokenDecimal : String := ""
  tokenSymbol : String := ""
  deriving DecidableEq, Repr

/-- Modelled from the spec: BNToHex of the util module (not included under
src) renders a big number as a 0x-prefixed lowercase hex string. -/
def bnToHexStr (n : Nat) : String := addHexPfx (natToHexStr n)

/-- Modelled from the spec: hexToBN of the util module (not included under
src) reads a 0x-prefixed or bare hex string as a big number. -/
def hexToBN (s : String) : Nat := jsParseIntHex s

/-- Modelled from the spec: fractionBN of the util module (not included under
src) scales a big number by numerator / denominator in integer BN arithmetic;
the Gas Estimator uses it with 19 / 20 to take 95 percent of the block gas
limit. -/
def fractionBN (target numerator denominator : Nat) : Nat :=
  target * numerator / denominator

/-- Model of new BN(s) on the decimal digit strings of the remote feed. -/
def bnFromDec (s : String) : Nat := parseDecDigits s.data 0

/-- The matching rule of filterForRemoteTx: when both the local and the remote
sender equal the queried wallet address (compared lowercased), the entries
match exactly when their nonces are strictly equal; otherwise they match
exactly when their transaction hashes are strictly equal. -/
def txMatches (address : String) (localTx remoteTx : TransactionMeta) : Bool :=
  if jsToLower localTx.transaction.fromAddr == jsToLower address &&
      jsToLower remoteTx.transaction.fromAddr == jsToLower address then
    localTx.transaction.nonce == remoteTx.transaction.nonce
  else
    localTx.transactionHash == remoteTx.transactionHash

/-- The matching rule as the specification words it, for comparison with
txMatches: the entries share the same sender address (compared lowercased) and
nonce, or otherwise their hashes are equal. -/
def specMatches (localTx remoteTx : TransactionMeta) : Bool :=
  if jsToLower localTx.transaction.fromAddr == jsToLower remoteTx.transaction.fromAddr then
    localTx.transaction.nonce == remoteTx.transaction.nonce
  else
    localTx.transactionHash == remoteTx.transactionHash

/-- The find over localTxs inside filterForRemoteTx: the first local entry
matching the remote one. -/
def findLocalMatch (localTxs : List TransactionMeta) (address : String)
    (remoteTx : TransactionMeta) : Option TransactionMeta :=
  localTxs.find? (fun l => txMatches address l remoteTx)

/-- The keep decision of the closure returned by filterForRemoteTx: a matched
remote entry is kept only when the matched local entry is not confirmed and
the remote entry is confirmed; an unmatched remote entry is always kept. -/
def keepRemoteTx (localTxs : List TransactionMeta) (address : String)
    (remoteTx : TransactionMeta) : Bool :=
  match findLocalMatch localTxs address remoteTx with
  | some l =>
    l.status != TransactionStatus.confirmed &&
      remoteTx.status == TransactionStatus.confirmed
  | none => true

/-- The removeLocalTxs accumulator filled by filterForRemoteTx while filtering
the remote list: the matched local entry is pushed exactly when the remote
entry overrides it (local not confirmed, remote confirmed). -/
def removeLocalTxs (localTxs : List TransactionMeta) (address : String)
    (remoteTxs : List TransactionMeta) : List TransactionMeta :=
  remoteTxs.filterMap (fun r =>
    match findLocalMatch localTxs address r with
    | some l =>
      if l.status != TransactionStatus.confirmed &&
          r.status == TransactionStatus.confirmed then some l else none
    | none => none)

/-- The keep decision of filterForLocalTx: a local entry survives unless some
removed entry has the same transaction hash. -/
def keepLocalTx (removed : List TransactionMeta) (localTx : TransactionMeta) : Bool :=
  !(removed.any (fun x => x.transactionHash == localTx.transactionHash))

/-- The merge step of fetchAll for one list pair: the kept local entries and
the remote entries selected for addition, in the order the source computes
them (the remote filter runs first and fills the removal accumulator, then
the local list is filtered against it). -/
def mergeTxs (localTxs : List TransactionMeta) (address : String)
    (remoteTxs : List TransactionMeta) : List TransactionMeta × List TransactionMeta :=
  let removed := removeLocalTxs localTxs address remoteTxs
  let adds := remoteTxs.filter (keepRemoteTx localTxs address)
  let kept := localTxs.filter (keepLocalTx removed)
  (kept, adds)

/-- Model of the disjunction Number(a) or Number(b) used for the token
transaction chain id: the first value wins unless it is 0 or NaN. -/
def jsNumOr (a b : String) : Option Nat :=
  match jsNumber a with
  | some n => if n = 0 then jsNumber b else some n
  | none => jsNumber b

/-- The normalizeTx method: shapes one native-list remote entry into a
TransactionMeta. The uuid generator random with a msecs hint is parameterised
as genId. -/
def normalizeTx (genId : Nat → String) (txMeta : EtherscanTransactionMeta)
    (currentNetworkID currentChainId address : String) : TransactionMeta :=
  let time := jsParseDec txMeta.timeStamp * 1000
  let confirmations := jsNumber txMeta.confirmations
  let normalizedTransactionBase : TransactionMeta := {
    blockNumber := some txMeta.blockNumber,
    id := genId time,
    networkID := some currentNetworkID,
    confirmations := some txMeta.confirmations,
    chainId := some currentChainId,
    time := time,
    transaction := {
      data := some txMeta.input,
      fromAddr := txMeta.fromAddr,
      gas := some (bnToHexStr (bnFromDec txMeta.gas)),
      gasPrice := some (bnToHexStr (bnFromDec txMeta.gasPrice)),
      nonce := some (bnToHexStr (bnFromDec txMeta.nonce)),
      toAddr := some txMeta.toAddr,
      value := some (bnToHexStr (bnFromDec txMeta.value)) },
    transactionHash := some txMeta.hash }
  if txMeta.isError == "0" then
    let tempStatus :=
      if jsNumberLt confirmations 2 then
        if jsToLower txMeta.fromAddr == jsToLower address then TransactionStatus.submitted
        else TransactionStatus.receiving
      else TransactionStatus.confirmed
    { normalizedTransactionBase with status := tempStatus }
  else
    { normalizedTransactionBase with
        error := some "Transaction failed",
        status := TransactionStatus.failed }

/-- The normalizeTokenTx method: shapes one token-list remote entry into a
TransactionMeta; it derives the status from the confirmation count and the
sender alone and never reads the isError flag. -/
def normalizeTokenTx (genId : Nat → String) (txMeta : EtherscanTransactionMeta)
    (currentNetworkID currentChainId address : String) : TransactionMeta :=
  let time := jsParseDec txMeta.timeStamp * 1000
  let confirmations := jsNumber txMeta.confirmations
  let tempStatus :=
    if jsNumberLt confirmations 2 then
      if jsToLower txMeta.fromAddr == jsToLower address then TransactionStatus.submitted
      else TransactionStatus.receiving
    else TransactionStatus.confirmed
  { blockNumber := some txMeta.blockNumber,
    id := genId time,
    isTokenTx := some true,
    networkID := some currentNetworkID,
    chainId := some currentChainId,
    confirmations := some txMeta.confirmations,
    status := tempStatus,
    time := time,
    transaction := {
      chainId := jsNumOr currentNetworkID currentChainId,
      fromAddr := txMeta.fromAddr,
      gas := some txMeta.gas,
      gasPrice := some txMeta.gasPrice,
      toAddr := some txMeta.toAddr,
      value := some txMeta.value,
      nonce := some (bnToHexStr (bnFromDec txMeta.nonce)) },
    transactionHash := some txMeta.hash,
    transferInformation := some {
      contractAddress := txMeta.contractAddress,
      decimals := jsParseDec txMeta.tokenDecimal,
      symbol := txMeta.tokenSymbol } }

/-- The duplicatedTxHash filter of fetchAll: an entry of a remote list is kept
exactly when the first entry with its transaction hash is the entry itself. -/
def duplicatedTxHash (remoteTxs : List TransactionMeta) : List TransactionMeta :=
  (remoteTxs.enum.filter (fun p =>
    remoteTxs.findIdx? (fun tx => tx.transactionHash == p.2.transactionHash) == some p.1)).map
    (fun p => p.2)

/-- Truthiness of the optional isTokenTx flag. -/
def jsTruthyBoolOpt (b : Option Bool) : Bool := b == some true

/-- The outcome of the reconciliation part of fetchAll: whether update (and
so notify) runs, the surviving local entries, the remote entries added, and
the local entries pushed for removal. The smart-contract annotation and the
timestamp sort that follow the merge do not influence any of these. -/
structure FetchAllOutcome where
  published : Bool
  keptLocals : List TransactionMeta
  added : List TransactionMeta
  removedLocals : List TransactionMeta
  deriving DecidableEq, Repr

/-- The reconciliation part of fetchAll, from the two normalized and
hash-deduplicated remote lists: the ether and token sublists of the local
Store are merged separately, and the Store is republished when it was empty
or when any entry was added or pushed for removal. -/
def fetchAllReconcile (stateTxs : List TransactionMeta) (address : String)
    (remoteEtherRaw remoteTokenRaw : List TransactionMeta) : FetchAllOutcome :=
  let remoteEtherTxs := duplicatedTxHash remoteEtherRaw
  let remoteTokenTxs := duplicatedTxHash remoteTokenRaw
  let localEtherTxs0 := stateTxs.filter (fun t => !(jsTruthyBoolOpt t.isTokenTx))
  let removeLocalEtherTxs := removeLocalTxs localEtherTxs0 address remoteEtherTxs
  let remoteEtherTxsForAdd := remoteEtherTxs.filter (keepRemoteTx localEtherTxs0 address)
  let localEtherTxs := localEtherTxs0.filter (keepLocalTx removeLocalEtherTxs)
  let localTokenTxs0 := stateTxs.filter (fun t => jsTruthyBoolOpt t.isTokenTx)
  let removeLocalTokenTxs := removeLocalTxs localTokenTxs0 address remoteTokenTxs
  let remoteTokenTxsForAdd := remoteTokenTxs.filter (keepRemoteTx localTokenTxs0 address)
  let localTokenTxs := localTokenTxs0.filter (keepLocalTx removeLocalTokenTxs)
  { published := stateTxs.isEmpty ||
      (!removeLocalEtherTxs.isEmpty || !removeLocalTokenTxs.isEmpty ||
        !remoteEtherTxsForAdd.isEmpty || !remoteTokenTxsForAdd.isEmpty),
    keptLocals := localEtherTxs ++ localTokenTxs,
    added := remoteEtherTxsForAdd ++ remoteTokenTxsForAdd,
    removedLocals := removeLocalEtherTxs ++ removeLocalTokenTxs }

/-- The updateTransaction method as it acts on the transactions list: the
element at the first index whose id matches is replaced wholesale (findIndex
followed by writing that slot of the copied array); with no match the
JavaScript write to slot -1 leaves the elements unchanged. Field
normalization of the draft (normalizeTransaction and validateTransaction of
the util module, not included under src) reshapes hex spellings only and is
modelled as the identity because no claim depends on those spellings. -/
def updateTransaction : List TransactionMeta → TransactionMeta → List TransactionMeta
  | [], _ => []
  | t :: ts, tm => if t.id == tm.id then tm :: ts else t :: updateTransaction ts tm

/-- The failed copy of a record that failTransaction builds: the error is
attached and the status becomes failed. -/
def failedCopy (tm : TransactionMeta) (errMsg : String) : TransactionMeta :=
  { tm with error := some errMsg, status := TransactionStatus.failed }

/-- The failTransaction method: a copy of the record with the error attached
and the failed status replaces the stored record, and a finished event keyed
by the original id carries the failed copy. -/
def failTransaction (transactions : List TransactionMeta) (tm : TransactionMeta)
    (errMsg : String) : List TransactionMeta × (String × TransactionMeta) :=
  (updateTransaction transactions (failedCopy tm errMsg),
   (tm.id ++ ":finished", failedCopy tm errMsg))

/-- The result of one controller operation on the Store: the new transactions
list, the hub events emitted (key and payload), and the message of an
exception that escaped the operation, when one did. -/
structure OpResult where
  transactions : List TransactionMeta
  events : List (String × TransactionMeta)
  thrown : Option String
  deriving DecidableEq, Repr

/-- The cancelTransaction method: with an unknown id it returns at once;
otherwise it emits a finished event carrying a rejected copy and republishes
the list without the record. -/
def cancelTransaction (transactions : List TransactionMeta)
    (transactionID : String) : OpResult :=
  match transactions.find? (fun t => t.id == transactionID) with
  | none => { transactions := transactions, events := [], thrown := none }
  | some transactionMeta =>
    let copiedTransactionMeta := { transactionMeta with
      status := TransactionStatus.rejected }
    { transactions := transactions.filter (fun t => t.id != transactionID),
      events := [(transactionMeta.id ++ ":finished", copiedTransactionMeta)],
      thrown := none }

/-- Removal of the record at the first index whose id matches, as the
findIndex plus splice pair does on the copied list (the callers only reach
it when the id is present). -/
def spliceOutFirstById : List TransactionMeta → String → List TransactionMeta
  | [], _ => []
  | t :: ts, i => if t.id == i then ts else t :: spliceOutFirstById ts i

/-- The externally supplied values of one fee-bump run: the fresh uuid, the
Date.now timestamp, and the hash returned by sendRawTransaction. -/
structure BumpParams where
  newId : String := ""
  newTime : Nat := 0
  transactionHash : String := ""
  deriving DecidableEq, Repr

/-- The replacement record stopTransaction builds: a zero-value self-transfer
from the original sender reusing the original nonce, with the gas price
scaled by CANCEL_RATE = 1.5 and floored (the parseInt of the decimal
rendering of the scaled number is its floor in the exact range), the token
fields deleted, and status cancelSubmitted under a fresh id. -/
def cancelReplacement (transactionMeta : TransactionMeta) (p : BumpParams) :
    TransactionMeta :=
  let existingGasPrice := transactionMeta.transaction.gasPrice
  let existingGasPriceDecimal := jsParseIntHex (existingGasPrice.getD "0x0")
  let gasPrice := addHexPfx (natToHexStr (existingGasPriceDecimal * 3 / 2))
  let txParams : TxTransaction := {
    fromAddr := transactionMeta.transaction.fromAddr,
    gasLimit := transactionMeta.transaction.gas,
    gasPrice := some gasPrice,
    nonce := transactionMeta.transaction.nonce,
    toAddr := some transactionMeta.transaction.fromAddr,
    value := some "0x0" }
  { transactionMeta with
    id := p.newId,
    time := p.newTime,
    transaction := txParams,
    transactionHash := some p.transactionHash,
    amount := none,
    isTokenTx := none,
    transferInformation := none,
    status := TransactionStatus.cancelSubmitted }

/-- The stopTransaction method: with an unknown id it returns at once; with
no signer it throws; otherwise it splices the original record out, pushes
the cancel replacement, and emits a finished event for the original id
carrying the replacement. -/
def stopTransaction (transactions : List TransactionMeta) (transactionID : String)
    (signDefined : Bool) (p : BumpParams) : OpResult :=
  match transactions.find? (fun t => t.id == transactionID) with
  | none => { transactions := transactions, events := [], thrown := none }
  | some transactionMeta =>
    if !signDefined then
      { transactions := transactions, events := [],
        thrown := some "No sign method defined." }
    else
      let newTransactionMeta := cancelReplacement transactionMeta p
      { transactions := spliceOutFirstById transactions transactionID ++ [newTransactionMeta],
        events := [(transactionMeta.id ++ ":finished", newTransactionMeta)],
        thrown := none }

/-- The replacement record speedUpTransaction builds: the original
transaction fields with the gas price scaled by SPEED_UP_RATE = 1.1 and
floored, and status accelerateSubmitted under a fresh id. -/
def speedUpReplacement (transactionMeta : TransactionMeta) (p : BumpParams) :
    TransactionMeta :=
  let existingGasPrice := transactionMeta.transaction.gasPrice
  let existingGasPriceDecimal := jsParseIntHex (existingGasPrice.getD "0x0")
  let gasPrice := addHexPfx (natToHexStr (existingGasPriceDecimal * 11 / 10))
  { transactionMeta with
    id := p.newId,
    time := p.newTime,
    transaction := { transactionMeta.transaction with gasPrice := some gasPrice },
    transactionHash := some p.transactionHash,
    status := TransactionStatus.accelerateSubmitted }

/-- The speedUpTransaction method: with an unknown id it returns at once;
with no signer it throws; otherwise it splices the original record out,
pushes the speed-up replacement, and emits a speedup event for the original
id. -/
def speedUpTransaction (transactions : List TransactionMeta) (transactionID : String)
    (signDefined : Bool) (p : BumpParams) : OpResult :=
  match transactions.find? (fun t => t.id == transactionID) with
  | none => { transactions := transactions, events := [], thrown := none }
  | some transactionMeta =>
    if !signDefined then
      { transactions := transactions, events := [],
        thrown := some "No sign method defined." }
    else
      let newTransactionMeta := speedUpReplacement transactionMeta p
      { transactions := spliceOutFirstById transactions transactionID ++ [newTransactionMeta],
        events := [(transactionMeta.id ++ ":speedup", newTransactionMeta)],
        thrown := none }

deriving instance DecidableEq for Except

/-- The environment of one approveTransaction run: the chain id of the
current provider, whether a signing method is configured, and the results of
the three fallible steps (the pending-nonce query, the sign delegate, and the
broadcast query), each able to raise. The serialization of the signed
transaction is the deterministic raw hex string. -/
structure ApproveOracle where
  currentChainId : Option String := none
  signDefined : Bool := true
  txCountResult : Except String String := Except.ok "0x0"
  signResult : Except String Unit := Except.ok ()
  rawTransaction : String := ""
  sendRawResult : Except String String := Except.ok ""
  deriving DecidableEq, Repr

/-- The observable outcome of one approveTransaction run: final list, events,
how many times the mutex release function ran, the message of an exception
that escaped the method, and the message of an exception its catch block
captured. -/
structure ApproveOutcome where
  transactions : List TransactionMeta
  events : List (String × TransactionMeta)
  releaseCount : Nat
  raised : Option String
  caught : Option String
  deriving DecidableEq, Repr

/-- The approved copy of a record built inside the approval pipeline: status
approved, the resolved nonce and the numeric chain id stamped on the draft. -/
def approvedStage (tm : TransactionMeta) (txNonce : String) (chainId : Nat) :
    TransactionMeta :=
  { tm with
    status := TransactionStatus.approved,
    transaction := { tm.transaction with
      nonce := some txNonce,
      chainId := some chainId } }

/-- The signed copy of a record built inside the approval pipeline. -/
def signedStage (tm : TransactionMeta) : TransactionMeta :=
  { tm with status := TransactionStatus.signed }

/-- The copy of a record carrying the serialized raw transaction. -/
def rawStage (tm : TransactionMeta) (raw : String) : TransactionMeta :=
  { tm with rawTransaction := some raw }

/-- The submitted copy of a record carrying the broadcast hash. -/
def submittedStage (tm : TransactionMeta) (transactionHash : String) :
    TransactionMeta :=
  { tm with
    transactionHash := some transactionHash,
    status := TransactionStatus.submitted }

/-- The tail of the approval pipeline once the nonce is resolved: sign,
store the signed and raw stages, broadcast, and either emit the submitted
record with its finished event, or catch the raised exception, fail the
record and emit the finished event with the failed copy; the finally release
runs once on each of these paths. -/
def approveAfterNonce (transactions : List TransactionMeta)
    (tempTxMeta : TransactionMeta) (txNonce : String) (chainId : Nat)
    (signResult : Except String Unit) (rawTransaction : String)
    (sendRawResult : Except String String) : ApproveOutcome :=
  let tempTxMeta2 := approvedStage tempTxMeta txNonce chainId
  match signResult with
  | Except.error e =>
    let fr := failTransaction transactions tempTxMeta2 e
    { transactions := fr.1, events := [fr.2], releaseCount := 1,
      raised := none, caught := some e }
  | Except.ok _ =>
    let tempTxMeta3 := signedStage tempTxMeta2
    let txs1 := updateTransaction transactions tempTxMeta3
    let tempTxMeta4 := rawStage tempTxMeta3 rawTransaction
    let txs2 := updateTransaction txs1 tempTxMeta4
    match sendRawResult with
    | Except.error e =>
      let fr := failTransaction txs2 tempTxMeta4 e
      { transactions := fr.1, events := [fr.2], releaseCount := 1,
        raised := none, caught := some e }
    | Except.ok transactionHash =>
      let tempTxMeta5 := submittedStage tempTxMeta4 transactionHash
      let txs3 := updateTransaction txs2 tempTxMeta5
      { transactions := txs3,
        events := [(tempTxMeta5.id ++ ":finished", tempTxMeta5)],
        releaseCount := 1, raised := none, caught := none }

/-- The approveTransaction method over the embedding. The record lookup and
the destructuring of its transaction happen after the mutex acquire and
before the try block, so an unknown id raises a TypeError that escapes with
no release; the two precondition branches release explicitly, fail the
record and return (the finally block then runs the release function a second
time); every exception inside the try block is caught, fails the record with
the captured error and emits the finished event, and the finally release
always runs. -/
def approveTransaction (transactions : List TransactionMeta) (transactionID : String)
    (o : ApproveOracle) : ApproveOutcome :=
  match transactions.find? (fun t => t.id == transactionID) with
  | none =>
    { transactions := transactions, events := [], releaseCount := 0,
      raised := some "TypeError: cannot read the transaction of undefined",
      caught := none }
  | some transactionMeta =>
    let nonce := transactionMeta.transaction.nonce
    let tempTxMeta := transactionMeta
    if !o.signDefined then
      let fr := failTransaction transactions tempTxMeta "No sign method defined."
      { transactions := fr.1, events := [fr.2], releaseCount := 2,
        raised := none, caught := none }
    else if jsFalsyStrOpt o.currentChainId then
      let fr := failTransaction transactions tempTxMeta "No chainId defined."
      { transactions := fr.1, events := [fr.2], releaseCount := 2,
        raised := none, caught := none }
    else
      let currentChainId := o.currentChainId.getD ""
      let chainId := jsParseIntHex currentChainId
      let txNonceRes : Except String String :=
        match nonce with
        | some s => if s != "" then Except.ok s else o.txCountResult
        | none => o.txCountResult
      match txNonceRes with
      | Except.error e =>
        let fr := failTransaction transactions tempTxMeta e
        { transactions := fr.1, events := [fr.2], releaseCount := 1,
          raised := none, caught := some e }
      | Except.ok txNonce =>
        approveAfterNonce transactions tempTxMeta txNonce chainId
          o.signResult o.rawTransaction o.sendRawResult

/-- One logical node query issued by the Gas Estimator, recorded in the order
the source awaits it. -/
inductive EthQueryCall where
  | gasPriceQ
  | getBlockByNumberQ
  | getCodeQ (address : String)
  | estimateGasQ (tx : TxTransaction)
  deriving DecidableEq, Repr

/-- The environment of one estimateGas run: the network gas price, the custom
network flag, the gas limit of the latest block, the deployed code per
address, and the network gas estimate for the prepared draft. -/
structure EstimateGasOracle where
  networkGasPrice : String := "0x0"
  isCustomNetwork : Bool := false
  blockGasLimit : String := "0x0"
  codeAt : String → String := fun _ => "0x"
  gasEstimate : String := "0x0"

/-- The short-circuit test of step 2 of estimateGas: no custom network, and
either no destination, or a destination with no call data and no deployed
code (the empty string and the bare 0x marker both count as no code). -/
def intrinsicCheck (toField dataField code : Option String)
    (isCustomNetwork : Bool) : Bool :=
  !isCustomNetwork &&
    (!(jsTruthyStrOpt toField) ||
      (jsTruthyStrOpt toField && !(jsTruthyStrOpt dataField) &&
        (code == some "" || code == some "0x")))

/-- Model of the two bn.js muln calls with fractional multipliers: on the
single-word values every realistic gas quantity occupies, muln(0.9) is
floor(n * 9 / 10) and muln(1.5) is floor(n * 3 / 2). -/
def bnMulnFrac (n numerator denominator : Nat) : Nat := n * numerator / denominator

/-- The draft sent to the network estimateGas query: the call data hex
prefixed when present, the value defaulted to 0x0, and the working gas set
to 95 percent of the latest block gas limit through fractionBN with 19 over
20. -/
def prepareEstimateTx (estimatedTransaction : TxTransaction)
    (o : EstimateGasOracle) : TxTransaction :=
  let estimatedTransaction1 := { estimatedTransaction with
    data := if !(jsTruthyStrOpt estimatedTransaction.data) then estimatedTransaction.data
      else estimatedTransaction.data.map addHexPfx }
  let estimatedTransaction2 := { estimatedTransaction1 with
    value := some (estimatedTransaction.value.getD "0x0") }
  { estimatedTransaction2 with
    gas := some (bnToHexStr (fractionBN (hexToBN o.blockGasLimit) 19 20)) }

/-- The estimation branch of estimateGas (step 4): issue the network
estimate for the prepared draft, then return the raw estimate when it
exceeds the cap of 90 percent of the block gas limit or the network is
custom, else the estimate padded by 1.5 when is stays below the cap, else
the cap, all in the modelled BN arithmetic. -/
def estimateGasTail (estimatedTransaction : TxTransaction) (gasPrice : String)
    (calls2 : List EthQueryCall) (o : EstimateGasOracle) :
    (String × String) × List EthQueryCall :=
  let estimatedTransaction3 := prepareEstimateTx estimatedTransaction o
  let calls3 := calls2 ++ [EthQueryCall.estimateGasQ estimatedTransaction3]
  let gasHex := o.gasEstimate
  let gasBN := hexToBN gasHex
  let gasLimitBN := hexToBN o.blockGasLimit
  let maxGasBN := bnMulnFrac gasLimitBN 9 10
  let paddedGasBN := bnMulnFrac gasBN 3 2
  if decide (gasBN > maxGasBN) || o.isCustomNetwork then
    ((addHexPfx gasHex, gasPrice), calls3)
  else if decide (paddedGasBN < maxGasBN) then
    ((addHexPfx (bnToHexStr paddedGasBN), gasPrice), calls3)
  else
    ((addHexPfx (bnToHexStr maxGasBN), gasPrice), calls3)

/-- The estimateGas method: returns the gas and gasPrice pair together with
the list of node queries issued. The code query for the destination is
awaited before the short-circuit test, exactly as in the source. -/
def estimateGas (transaction : TxTransaction) (o : EstimateGasOracle) :
    (String × String) × List EthQueryCall :=
  let estimatedTransaction := transaction
  let gas := estimatedTransaction.gas
  let providedGasPrice := estimatedTransaction.gasPrice
  let toField := estimatedTransaction.toAddr
  let dataField := estimatedTransaction.data
  let gasPriceAndCalls :=
    match providedGasPrice with
    | none => (o.networkGasPrice, [EthQueryCall.gasPriceQ])
    | some p => (p, ([] : List EthQueryCall))
  let gasPrice := gasPriceAndCalls.1
  let calls0 := gasPriceAndCalls.2
  match gas with
  | some g => ((g, gasPrice), calls0)
  | none =>
    let calls1 := calls0 ++ [EthQueryCall.getBlockByNumberQ]
    let code : Option String :=
      if jsTruthyStrOpt toField then some (o.codeAt (toField.getD "")) else none
    let calls2 := calls1 ++
      (if jsTruthyStrOpt toField then [EthQueryCall.getCodeQ (toField.getD "")] else [])
    if intrinsicCheck toField dataField code o.isCustomNetwork then
      (("0x5208", gasPrice), calls2)
    else
      estimateGasTail estimatedTransaction gasPrice calls2 o

/-- The Store as the poller sees it, with JavaScript object identity made
explicit: heap holds the record objects by address, and txRefs is the
published transactions array, a list of addresses into the heap. Operations
that copy a record before changing it allocate, while a direct field write
changes the heap at an address the published array already holds. -/
structure TxHeapState where
  heap : List TransactionMeta
  txRefs : List Nat
  deriving DecidableEq, Repr

/-- The chain-context test of the poller (and of wipeTransactions): the chain
id matches, or there is no chain id and the legacy network id matches. -/
def chainContextMatches (currentChainId currentNetworkID : String)
    (m : TransactionMeta) : Bool :=
  m.chainId == some currentChainId ||
    (jsFalsyStrOpt m.chainId && m.networkID == some currentNetworkID)

/-- One poller tick (queryTransactionStatuses): every submitted record of the
current chain context is looked up by hash, and on block inclusion the
record object is written in place at its existing heap address
(transactions[index].status receives confirmed) and a confirmed event fires;
when anything changed, update republishes a copied array holding the same
addresses. Returns the new state, the emitted event keys, and gotUpdates. -/
def queryTransactionStatuses (st : TxHeapState)
    (currentChainId currentNetworkID : String)
    (txByHash : Option String → Option String) :
    TxHeapState × List String × Bool :=
  let step := fun (acc : List TransactionMeta × List String × Bool) (r : Nat) =>
    match acc.1.get? r with
    | none => acc
    | some meta =>
      if meta.status == TransactionStatus.submitted &&
          chainContextMatches currentChainId currentNetworkID meta then
        match txByHash meta.transactionHash with
        | some _ =>
          (acc.1.set r { meta with status := TransactionStatus.confirmed },
           acc.2.1 ++ [meta.id ++ ":confirmed"], true)
        | none => acc
      else acc
  let res := st.txRefs.foldl step (st.heap, [], false)
  ({ heap := res.1, txRefs := st.txRefs }, res.2.1, res.2.2)

/-- Concrete local record for the C1 scenario: submitted, sender is the
wallet, nonce 0x1. -/
def c1Local : TransactionMeta :=
  { id := "L1", status := TransactionStatus.submitted,
    transactionHash := some "0xh0",
    transaction := { fromAddr := "0xaa", nonce := some "0x1" } }

/-- Concrete remote record matching c1Local by sender and nonce, confirmed. -/
def c1RemoteConfirmed : TransactionMeta :=
  { id := "R1", status := TransactionStatus.confirmed,
    transactionHash := some "0xh1",
    transaction := { fromAddr := "0xaa", nonce := some "0x1" } }

/-- Concrete remote record matching c1Local by sender and nonce, submitted. -/
def c1RemoteSubmitted : TransactionMeta :=
  { id := "R2", status := TransactionStatus.submitted,
    transactionHash := some "0xh2",
    transaction := { fromAddr := "0xaa", nonce := some "0x1" } }

/-- Concrete remote record matching no local record. -/
def c1Unmatched : TransactionMeta :=
  { id := "R0", status := TransactionStatus.confirmed,
    transactionHash := some "0xh9",
    transaction := { fromAddr := "0xcc", nonce := some "0x5" } }

/-- Concrete local record for the C2 scenario: its sender 0xbb is a third
party, not the queried wallet 0xaa. -/
def c2LocalTx : TransactionMeta :=
  { id := "L2", status := TransactionStatus.receiving,
    transactionHash := some "0xhash-a",
    transaction := { fromAddr := "0xbb", nonce := some "0x1" } }

/-- Concrete remote record for the C2 scenario: same third-party sender and
nonce as c2LocalTx but a different hash. -/
def c2RemoteTx : TransactionMeta :=
  { id := "R3", status := TransactionStatus.confirmed,
    transactionHash := some "0xhash-b",
    transaction := { fromAddr := "0xbb", nonce := some "0x1" } }

/-- Concrete submitted record of the current chain for the C3 scenario. -/
def c3Meta : TransactionMeta :=
  { id := "t3", status := TransactionStatus.submitted,
    chainId := some "0x1",
    transactionHash := some "0xabc",
    transaction := { fromAddr := "0xaa" } }

/-- Concrete draft of the stored record for the C5 witness. -/
def w5Tx : TxTransaction :=
  { fromAddr := "0xaa", toAddr := some "0xbb",
    value := some "0x5", data := some "0xd5",
    gas := some "0x5208", gasPrice := some "0x64", nonce := some "0x7" }

/-- Concrete stored record for the C5 witness. -/
def w5Meta : TransactionMeta :=
  { id := "a", status := TransactionStatus.submitted,
    transactionHash := some "0xh5",
    transaction := w5Tx }

/-- Concrete fee-bump inputs for the C5 witness cancel run. -/
def w5StopParams : BumpParams :=
  { newId := "b", newTime := 2, transactionHash := "0xnew1" }

/-- Concrete fee-bump inputs for the C5 witness speed-up run. -/
def w5SpeedParams : BumpParams :=
  { newId := "c", newTime := 3, transactionHash := "0xnew2" }

/-- Concrete draft of the stored record for the C6 witness. -/
def w6Tx : TxTransaction :=
  { fromAddr := "0xaa", gas := some "0x5208", gasPrice := some "0x1" }

/-- Concrete stored record for the C6 witness. -/
def w6Meta : TransactionMeta :=
  { id := "t6", status := TransactionStatus.unapproved, transaction := w6Tx }

/-- Concrete environment for the C6 witness in which the sign delegate
raises. -/
def w6Oracle : ApproveOracle :=
  { currentChainId := some "0x1", signDefined := true,
    txCountResult := Except.ok "0x0",
    signResult := Except.error "sign failed",
    rawTransaction := "0xraw", sendRawResult := Except.ok "0xhash" }

/-- Concrete errored token-list entry with 5 confirmations for the C7
counterexample. -/
def c7TokenEntry : EtherscanTransactionMeta :=
  { isError := "1", confirmations := "5", fromAddr := "0xbb",
    toAddr := "0xaa", timeStamp := "100", hash := "0xh7",
    nonce := "3", gas := "21000", gasPrice := "5", value := "9" }

/-- Concrete errored native-list entry for the C7 witness. -/
def w7Entry : EtherscanTransactionMeta :=
  { isError := "1", confirmations := "0", fromAddr := "0xaa",
    toAddr := "0xbb", timeStamp := "5", hash := "0xh8",
    nonce := "4", gas := "21000", gasPrice := "5", value := "9" }

/-- Concrete draft reaching the estimation branch for the C4 witness: a
destination with deployed code and call data. -/
def w4Tx : TxTransaction :=
  { fromAddr := "0xaa", toAddr := some "0xbb", data := some "dd" }

/-- Concrete environment for the C4 witness: block gas limit 0x64 = 100 and
network estimate 0xa = 10, so the padded estimate 15 is below the cap 90. -/
def w4Oracle : EstimateGasOracle :=
  { networkGasPrice := "0x3", isCustomNetwork := false,
    blockGasLimit := "0x64", codeAt := fun _ => "0x6060",
    gasEstimate := "0xa" }

/-- Concrete draft with caller-supplied gas for the C8 witness. -/
def w8Tx : TxTransaction :=
  { fromAddr := "0xaa", toAddr := some "0xbb", gas := some "0x1234" }

/-- Concrete environment for the C8 witness. -/
def w8Oracle : EstimateGasOracle :=
  { networkGasPrice := "0x9", isCustomNetwork := false,
    blockGasLimit := "0x64", codeAt := fun _ => "0x6060",
    gasEstimate := "0xa" }

/-- Concrete stored record for the C10 witness, whose id differs from the
requested one. -/
def w10Meta : TransactionMeta :=
  { id := "known", status := TransactionStatus.submitted,
    transaction := { fromAddr := "0xaa" } }

/-! Helper lemmas about the hex and list primitives. -/

theorem ofRevHex_cons (d : Nat) (ds : List Nat) :
    ofRevHex (d :: ds) = ofRevHex ds * 16 + d := rfl

theorem hexDigitsRevFuel_ofRev (fuel : Nat) :
    ∀ n, n ≤ fuel → ofRevHex (hexDigitsRevFuel fuel n) = n := by
  induction fuel with
  | zero =>
    intro n hn
    have h0 : n = 0 := Nat.le_zero.mp hn
    subst h0
    rfl
  | succ f ih =>
    intro n hn
    by_cases h0 : n = 0
    · subst h0
      rfl
    · have hdiv : n / 16 ≤ f := by
        have hlt : n / 16 < n := Nat.div_lt_self (Nat.pos_of_ne_zero h0) (by omega)
        omega
      have hstep : hexDigitsRevFuel (f + 1) n = n % 16 :: hexDigitsRevFuel f (n / 16) := by
        simp [hexDigitsRevFuel, h0]
      rw [hstep, ofRevHex_cons, ih _ hdiv]
      omega

theorem hexDigitsRevFuel_lt (fuel : Nat) :
    ∀ n d, d ∈ hexDigitsRevFuel fuel n → d < 16 := by
  induction fuel with
  | zero =>
    intro n d hd
    simp [hexDigitsRevFuel] at hd
  | succ f ih =>
    intro n d hd
    by_cases h0 : n = 0
    · subst h0
      simp [hexDigitsRevFuel] at hd
    · simp only [hexDigitsRevFuel, h0, if_false, List.mem_cons] at hd
      rcases hd with h | h
      · omega
      · exact ih _ _ h

theorem hexDigitVal_hexDigitChar : ∀ d, d < 16 → hexDigitVal (hexDigitChar d) = some d := by
  decide

theorem hexDigitChar_ne_x : ∀ d, d < 16 → hexDigitChar d ≠ 'x' := by
  decide

theorem parseHexDigits_map (ds : List Nat) :
    ∀ acc, (∀ d ∈ ds, d < 16) →
      parseHexDigits (ds.map hexDigitChar) acc = ds.foldl (fun a d => a * 16 + d) acc := by
  induction ds with
  | nil =>
    intro acc _
    rfl
  | cons d ds ih =>
    intro acc h
    have hd : d < 16 := h d (by simp)
    simp only [List.map_cons, parseHexDigits, hexDigitVal_hexDigitChar d hd, List.foldl_cons]
    exact ih _ (fun x hx => h x (List.mem_cons_of_mem _ hx))

theorem foldl_reverse_ofRevHex (ds : List Nat) :
    ds.reverse.foldl (fun a d => a * 16 + d) 0 = ofRevHex ds := by
  rw [List.foldl_reverse]
  rfl

theorem parse_natToHexChars (k : Nat) : parseHexDigits (natToHexChars k) 0 = k := by
  by_cases h0 : k = 0
  · subst h0
    decide
  · have hne : hexDigitsRevFuel k k ≠ [] := by
      cases k with
      | zero => exact absurd rfl h0
      | succ m => simp [hexDigitsRevFuel]
    have hXne : (hexDigitsRevFuel k k).reverse.map hexDigitChar ≠ [] := by
      simp [hne]
    have hchars : natToHexChars k = (hexDigitsRevFuel k k).reverse.map hexDigitChar := by
      unfold natToHexChars
      cases hX : (hexDigitsRevFuel k k).reverse.map hexDigitChar with
      | nil => exact absurd hX hXne
      | cons a t => rfl
    rw [hchars]
    rw [parseHexDigits_map _ 0 (fun d hd => hexDigitsRevFuel_lt k k d (List.mem_reverse.mp hd))]
    rw [foldl_reverse_ofRevHex]
    exact hexDigitsRevFuel_ofRev k k le_rfl

theorem natToHexChars_ne_x (k : Nat) : ∀ c ∈ natToHexChars k, c ≠ 'x' := by
  intro c hc
  unfold natToHexChars at hc
  by_cases h0 : k = 0
  · subst h0
    simp only [hexDigitsRevFuel, List.reverse_nil, List.map_nil] at hc
    simp at hc
    subst hc
    decide
  · cases hX : (hexDigitsRevFuel k k).reverse.map hexDigitChar with
    | nil =>
      rw [hX] at hc
      simp at hc
      subst hc
      decide
    | cons a t =>
      rw [hX] at hc
      have hmem : c ∈ (hexDigitsRevFuel k k).reverse.map hexDigitChar := by
        rw [hX]
        exact hc
      rcases List.mem_map.mp hmem with ⟨d, hd, hdc⟩
      have hdlt : d < 16 := hexDigitsRevFuel_lt k k d (List.mem_reverse.mp hd)
      rw [← hdc]
      exact hexDigitChar_ne_x d hdlt

theorem natToHexChars_not_prefixed (k : Nat) : isHexPrefixed (natToHexChars k) = false := by
  cases hX : natToHexChars k with
  | nil => rfl
  | cons a t =>
    cases t with
    | nil => rfl
    | cons b t2 =>
      have hb : b ∈ natToHexChars k := by
        rw [hX]
        simp
      have hbx : b ≠ 'x' := natToHexChars_ne_x k b hb
      simp only [isHexPrefixed, Bool.and_eq_false_iff]
      right
      simp [hbx]

theorem stripHexPfx_marker (cs : List Char) : stripHexPfx ('0' :: 'x' :: cs) = cs := by
  simp [stripHexPfx]

theorem stripHexPfx_of_not_prefixed (cs : List Char) (h : isHexPrefixed cs = false) :
    stripHexPfx cs = cs := by
  cases cs with
  | nil => rfl
  | cons a t =>
    cases t with
    | nil => rfl
    | cons b t2 =>
      simp only [isHexPrefixed] at h
      simp [stripHexPfx, h]

theorem jsParseIntHex_roundtrip (k : Nat) : jsParseIntHex (addHexPfx (natToHexStr k)) = k := by
  unfold jsParseIntHex addHexPfx natToHexStr
  simp only [String.data]
  rw [natToHexChars_not_prefixed]
  simp only [if_false, Bool.false_eq_true]
  rw [stripHexPfx_marker]
  exact parse_natToHexChars k

theorem jsParseIntHex_addHexPfx (s : String) :
    jsParseIntHex (addHexPfx s) = jsParseIntHex s := by
  unfold jsParseIntHex addHexPfx
  by_cases h : isHexPrefixed s.data
  · simp [h]
  · simp only [h, if_false, Bool.false_eq_true, String.data]
    rw [stripHexPfx_marker, stripHexPfx_of_not_prefixed s.data (by simpa using h)]

theorem txMatches_self (address : String) (l : TransactionMeta) :
    txMatches address l l = true := by
  unfold txMatches
  split
  · simp
  · simp

/-- C2 counterexample: the local and remote entries share the same sender
address (a third party, not the queried wallet) and the same nonce, yet the
merge matching rule of filterForRemoteTx does not match them, because it
compares nonces only when both senders equal the queried wallet address and
here falls back to the differing hashes; the predicate worded as the claim
states it does match them. -/
theorem c2_counterexample :
    c2LocalTx.transaction.fromAddr = c2RemoteTx.transaction.fromAddr ∧
    c2LocalTx.transaction.nonce = c2RemoteTx.transaction.nonce ∧
    c2LocalTx.transaction.nonce ≠ none ∧
    specMatches c2LocalTx c2RemoteTx = true ∧
    txMatches "0xaa" c2LocalTx c2RemoteTx = false := by
  decide

/-- C2, amended: a remote entry matches a local entry exactly when both
senders equal the queried wallet address (compared case-insensitively) and
the nonces are strictly equal, or, when not both senders equal the queried
address, when the transaction hashes are strictly equal. -/
theorem c2_match_rule (address : String) (l r : TransactionMeta) :
    txMatches address l r = true ↔
      ((jsToLower l.transaction.fromAddr = jsToLower address ∧
        jsToLower r.transaction.fromAddr = jsToLower address ∧
        l.transaction.nonce = r.transaction.nonce) ∨
       (¬(jsToLower l.transaction.fromAddr = jsToLower address ∧
          jsToLower r.transaction.fromAddr = jsToLower address) ∧
        l.transactionHash = r.transactionHash)) := by
  unfold txMatches
  split
  next hcond =>
    rw [Bool.and_eq_true, beq_iff_eq, beq_iff_eq] at hcond
    simp [hcond.1, hcond.2]
  next hcond =>
    rw [Bool.and_eq_true, beq_iff_eq, beq_iff_eq] at hcond
    constructor
    · intro hh
      exact Or.inr ⟨hcond, beq_iff_eq.mp hh⟩
    · intro hh
      rcases hh with hc | hc
      · exact absurd ⟨hc.1, hc.2.1⟩ hcond
      · exact beq_iff_eq.mpr hc.2

/-- C3: evaluation of the poller tick at the failing input. The heap makes
JavaScript object identity explicit: the published array txRefs holds
addresses of record objects. One submitted record of the current chain whose
hash query reports block inclusion is rewritten in place at its existing
address (the source writes transactions[index].status directly), so the
record object the previously published list points to changes from submitted
to confirmed, while the republished array holds the same addresses. -/
theorem c3_poller_in_place_mutation :
    (queryTransactionStatuses { heap := [c3Meta], txRefs := [0] } "0x1" "1"
        (fun _ => some "0x10")).1.txRefs = [0] ∧
    ((({ heap := [c3Meta], txRefs := [0] } : TxHeapState).heap.get? 0).map
        (fun m => m.status)) = some TransactionStatus.submitted ∧
    (((queryTransactionStatuses { heap := [c3Meta], txRefs := [0] } "0x1" "1"
        (fun _ => some "0x10")).1.heap.get? 0).map (fun m => m.status)) =
      some TransactionStatus.confirmed ∧
    (queryTransactionStatuses { heap := [c3Meta], txRefs := [0] } "0x1" "1"
        (fun _ => some "0x10")).2.2 = true := by
  decide

/-- C9 counterexample: a fetchAll run over an empty local Store with empty
remote lists adds nothing and removes nothing, yet the source republishes
(the transactions.length === 0 branch calls update unconditionally), firing
notify; the claim states the Store is left unpublished in that case. -/
theorem c9_counterexample :
    (fetchAllReconcile [] "0xaa" [] []).published = true ∧
    (fetchAllReconcile [] "0xaa" [] []).added = [] ∧
    (fetchAllReconcile [] "0xaa" [] []).removedLocals = [] := by
  decide

/-- C9, amended: fetchAll republishes the Store exactly when the local
transaction list was empty, or when the reconciliation added at least one
remote entry or pushed at least one local entry for removal; in every other
case update and notify do not run and the Store is unchanged. -/
theorem c9_publish_condition (stateTxs : List TransactionMeta) (address : String)
    (remoteEtherRaw remoteTokenRaw : List TransactionMeta) :
    (fetchAllReconcile stateTxs address remoteEtherRaw remoteTokenRaw).published = true ↔
      (stateTxs = [] ∨
       (fetchAllReconcile stateTxs address remoteEtherRaw remoteTokenRaw).removedLocals ≠ [] ∨
       (fetchAllReconcile stateTxs address remoteEtherRaw remoteTokenRaw).added ≠ []) := by
  unfold fetchAllReconcile
  simp only [Bool.or_eq_true, Bool.not_eq_true', List.isEmpty_eq_true,
    List.isEmpty_eq_false, ne_eq, List.append_eq_nil]
  tauto

/-- C10: with an id absent from the Store, cancelTransaction,
stopTransaction and speedUpTransaction return without throwing, leave the
transactions list untouched and emit no event, regardless of whether a
signing method is configured. -/
theorem c10_unknown_id_noop (transactions : List TransactionMeta)
    (transactionID : String) (signStop signSpeed : Bool) (p q : BumpParams)
    (h : transactions.find? (fun t => t.id == transactionID) = none) :
    cancelTransaction transactions transactionID =
      { transactions := transactions, events := [], thrown := none } ∧
    stopTransaction transactions transactionID signStop p =
      { transactions := transactions, events := [], thrown := none } ∧
    speedUpTransaction transactions transactionID signSpeed q =
      { transactions := transactions, events := [], thrown := none } := by
  unfold cancelTransaction stopTransaction speedUpTransaction
  simp only [h]
  exact ⟨trivial, trivial, trivial⟩

/-- C10 witness: concrete one-record Store, requested id absent, signer not
configured. -/
theorem c10_unknown_id_noop_witness :
    cancelTransaction [w10Meta] "missing" =
      { transactions := [w10Meta], events := [], thrown := none } ∧
    stopTransaction [w10Meta] "missing" false {} =
      { transactions := [w10Meta], events := [], thrown := none } ∧
    speedUpTransaction [w10Meta] "missing" false {} =
      { transactions := [w10Meta], events := [], thrown := none } :=
  c10_unknown_id_noop [w10Meta] "missing" false false {} {} (by decide)

/-- C7 counterexample: a token-transfer entry flagged as errored by the
remote source (isError not 0) with 5 confirmations is normalized to
confirmed, not to failed, because normalizeTokenTx never reads the error
flag; the claim states every remote entry of both lists is marked failed
when flagged as errored. -/
theorem c7_counterexample :
    c7TokenEntry.isError ≠ "0" ∧
    (normalizeTokenTx (fun _ => "uuid-7") c7TokenEntry "1" "0x1" "0xaa").status =
      TransactionStatus.confirmed ∧
    (normalizeTokenTx (fun _ => "uuid-7") c7TokenEntry "1" "0x1" "0xaa").status ≠
      TransactionStatus.failed ∧
    (normalizeTokenTx (fun _ => "uuid-7") c7TokenEntry "1" "0x1" "0xaa").error = none := by
  decide

/-- C7, amended: native-list normalization assigns failed with an error
attached when the remote source flags the entry as errored, confirmed when
the confirmation count is at least 2, and otherwise submitted when the
queried wallet is the sender and receiving when it is not; token-transfer
normalization applies the same confirmation and sender rule but ignores the
error flag and never assigns failed. -/
theorem c7_normalization_status (genId : Nat → String)
    (e : EtherscanTransactionMeta) (nid cid address : String) (c : Nat)
    (hc : jsNumber e.confirmations = some c) :
    ((e.isError ≠ "0" →
        (normalizeTx genId e nid cid address).status = TransactionStatus.failed ∧
        (normalizeTx genId e nid cid address).error = some "Transaction failed") ∧
     (e.isError = "0" → 2 ≤ c →
        (normalizeTx genId e nid cid address).status = TransactionStatus.confirmed) ∧
     (e.isError = "0" → c < 2 → jsToLower e.fromAddr = jsToLower address →
        (normalizeTx genId e nid cid address).status = TransactionStatus.submitted) ∧
     (e.isError = "0" → c < 2 → jsToLower e.fromAddr ≠ jsToLower address →
        (normalizeTx genId e nid cid address).status = TransactionStatus.receiving)) ∧
    ((2 ≤ c →
        (normalizeTokenTx genId e nid cid address).status = TransactionStatus.confirmed) ∧
     (c < 2 → jsToLower e.fromAddr = jsToLower address →
        (normalizeTokenTx genId e nid cid address).status = TransactionStatus.submitted) ∧
     (c < 2 → jsToLower e.fromAddr ≠ jsToLower address →
        (normalizeTokenTx genId e nid cid address).status = TransactionStatus.receiving) ∧
     (normalizeTokenTx genId e nid cid address).status ≠ TransactionStatus.failed) := by
  have hlt : jsNumberLt (jsNumber e.confirmations) 2 = decide (c < 2) := by
    rw [hc]
    rfl
  constructor
  · refine ⟨?_, ?_, ?_, ?_⟩
    · intro herr
      have hbeq : (e.isError == "0") = false := by
        simp [herr]
      simp [normalizeTx, hbeq]
    · intro herr hc2
      have hbeq : (e.isError == "0") = true := by
        simp [herr]
      have hdec : decide (c < 2) = false := by
        simp
        omega
      simp [normalizeTx, hbeq, hlt, hdec]
    · intro herr hc2 hfrom
      have hbeq : (e.isError == "0") = true := by
        simp [herr]
      have hdec : decide (c < 2) = true := by
        simpa using hc2
      have hfbeq : (jsToLower e.fromAddr == jsToLower address) = true := by
        simp [hfrom]
      simp [normalizeTx, hbeq, hlt, hdec, hfbeq]
    · intro herr hc2 hfrom
      have hbeq : (e.isError == "0") = true := by
        simp [herr]
      have hdec : decide (c < 2) = true := by
        simpa using hc2
      have hfbeq : (jsToLower e.fromAddr == jsToLower address) = false := by
        simp [hfrom]
      simp [normalizeTx, hbeq, hlt, hdec, hfbeq]
  · refine ⟨?_, ?_, ?_, ?_⟩
    · intro hc2
      have hdec : decide (c < 2) = false := by
        simp
        omega
      simp [normalizeTokenTx, hlt, hdec]
    · intro hc2 hfrom
      have hdec : decide (c < 2) = true := by
        simpa using hc2
      have hfbeq : (jsToLower e.fromAddr == jsToLower address) = true := by
        simp [hfrom]
      simp [normalizeTokenTx, hlt, hdec, hfbeq]
    · intro hc2 hfrom
      have hdec : decide (c < 2) = true := by
        simpa using hc2
      have hfbeq : (jsToLower e.fromAddr == jsToLower address) = false := by
        simp [hfrom]
      simp [normalizeTokenTx, hlt, hdec, hfbeq]
    · by_cases hdec : c < 2
      · by_cases hfrom : jsToLower e.fromAddr = jsToLower address
        · have hfbeq : (jsToLower e.fromAddr == jsToLower address) = true := by
            simp [hfrom]
          simp [normalizeTokenTx, hlt, hdec, hfbeq]
        · have hfbeq : (jsToLower e.fromAddr == jsToLower address) = false := by
            simp [hfrom]
          simp [normalizeTokenTx, hlt, hdec, hfbeq]
      · simp [normalizeTokenTx, hlt, hdec]

/-- C7 witness: a concrete errored native entry is normalized to failed with
the error attached, while the same entry normalized as a token transfer is
not failed. -/
theorem c7_normalization_status_witness :
    (normalizeTx (fun _ => "uuid-8") w7Entry "1" "0x1" "0xaa").status =
      TransactionStatus.failed ∧
    (normalizeTx (fun _ => "uuid-8") w7Entry "1" "0x1" "0xaa").error =
      some "Transaction failed" ∧
    (normalizeTokenTx (fun _ => "uuid-8") w7Entry "1" "0x1" "0xaa").status ≠
      TransactionStatus.failed := by
  have h := c7_normalization_status (fun _ => "uuid-8") w7Entry "1" "0x1" "0xaa" 0
    (by decide)
  have hfail := h.1.1 (by decide)
  exact ⟨hfail.1, hfail.2, h.2.2.2.2⟩

/-- C8: when the draft carries a gas value, estimateGas returns exactly that
value, fetches the network gas price only when the draft has none, and
issues no block or code query: the full query log is the single gasPrice
query or nothing. -/
theorem c8_preset_gas_authoritative (transaction : TxTransaction)
    (o : EstimateGasOracle) (g : String) (hg : transaction.gas = some g) :
    estimateGas transaction o =
      ((g, match transaction.gasPrice with
           | none => o.networkGasPrice
           | some p => p),
       match transaction.gasPrice with
       | none => [EthQueryCall.gasPriceQ]
       | some _ => []) := by
  rcases hp : transaction.gasPrice with _ | p <;>
    simp [estimateGas, hg, hp]

/-- C8 witness: a concrete draft with gas 0x1234 and no gasPrice returns
that gas unchanged with the network gas price, after a single gasPrice
query. -/
theorem c8_preset_gas_authoritative_witness :
    estimateGas w8Tx w8Oracle =
      ((("0x1234" : String), w8Oracle.networkGasPrice), [EthQueryCall.gasPriceQ]) :=
  c8_preset_gas_authoritative w8Tx w8Oracle "0x1234" rfl

/-- C1 counterexample: one submitted local record is matched by two remote
records — one confirmed (which pushes the local record for removal) and one
submitted. For the submitted remote record the pair is in the claimed
keep-the-local case, yet the local record is absent from both components of
the merged result, because the confirmed remote record already removed it;
the claim states that in every such matched case the local entry is kept. -/
theorem c1_counterexample :
    findLocalMatch [c1Local] "0xaa" c1RemoteSubmitted = some c1Local ∧
    ¬(c1Local.status ≠ TransactionStatus.confirmed ∧
      c1RemoteSubmitted.status = TransactionStatus.confirmed) ∧
    c1Local ∉ (mergeTxs [c1Local] "0xaa" [c1RemoteConfirmed, c1RemoteSubmitted]).1 ∧
    c1Local ∉ (mergeTxs [c1Local] "0xaa" [c1RemoteConfirmed, c1RemoteSubmitted]).2 := by
  decide

/-- C1, amended: for every remote entry of the merge, if it matches a local
entry (the first match of the find) and the local entry is not confirmed
while the remote entry is confirmed, the remote entry is kept and the local
entry appears in neither component of the merged result; in every other
matched case the remote entry is dropped, and the local entry is kept
exactly when no remote entry of the run pushed a local record with the same
transaction hash for removal; every unmatched remote entry is added. -/
theorem c1_merge_precedence (localTxs remoteTxs : List TransactionMeta)
    (address : String) (r : TransactionMeta) (hr : r ∈ remoteTxs) :
    (∀ l, findLocalMatch localTxs address r = some l →
      ((l.status ≠ TransactionStatus.confirmed ∧
          r.status = TransactionStatus.confirmed →
        r ∈ (mergeTxs localTxs address remoteTxs).2 ∧
        l ∉ (mergeTxs localTxs address remoteTxs).1 ∧
        l ∉ (mergeTxs localTxs address remoteTxs).2) ∧
       (¬(l.status ≠ TransactionStatus.confirmed ∧
            r.status = TransactionStatus.confirmed) →
        r ∉ (mergeTxs localTxs address remoteTxs).2 ∧
        (l ∈ (mergeTxs localTxs address remoteTxs).1 ↔
          ∀ x ∈ removeLocalTxs localTxs address remoteTxs,
            x.transactionHash ≠ l.transactionHash)))) ∧
    (findLocalMatch localTxs address r = none →
      r ∈ (mergeTxs localTxs address remoteTxs).2) := by
  have hadds : ∀ x, x ∈ (mergeTxs localTxs address remoteTxs).2 ↔
      x ∈ remoteTxs ∧ keepRemoteTx localTxs address x = true := by
    intro x
    simp [mergeTxs, List.mem_filter]
  have hkept : ∀ x, x ∈ (mergeTxs localTxs address remoteTxs).1 ↔
      x ∈ localTxs ∧ keepLocalTx (removeLocalTxs localTxs address remoteTxs) x = true := by
    intro x
    simp [mergeTxs, List.mem_filter]
  constructor
  · intro l hl
    have hlmem : l ∈ localTxs := by
      have := List.mem_of_find?_eq_some hl
      exact this
    constructor
    · intro hcond
      have hkeep : keepRemoteTx localTxs address r = true := by
        unfold keepRemoteTx
        rw [hl]
        simp [hcond.1, hcond.2]
      have hremoved : l ∈ removeLocalTxs localTxs address remoteTxs := by
        rw [removeLocalTxs, List.mem_filterMap]
        refine ⟨r, hr, ?_⟩
        rw [hl]
        simp [hcond.1, hcond.2]
      refine ⟨(hadds r).mpr ⟨hr, hkeep⟩, ?_, ?_⟩
      · intro hmem
        have hkl := ((hkept l).mp hmem).2
        unfold keepLocalTx at hkl
        rw [Bool.not_eq_true', List.any_eq_false] at hkl
        have := hkl l hremoved
        simp at this
      · intro hmem
        have hk := ((hadds l).mp hmem).2
        unfold keepRemoteTx at hk
        cases hfl : findLocalMatch localTxs address l with
        | none =>
          have hnone := List.find?_eq_none.mp hfl l hlmem
          exact hnone (txMatches_self address l)
        | some l2 =>
          rw [hfl] at hk
          rw [Bool.and_eq_true] at hk
          have : l.status = TransactionStatus.confirmed := by
            simpa using hk.2
          exact hcond.1 this
    · intro hcond
      have hkeep : keepRemoteTx localTxs address r = false := by
        unfold keepRemoteTx
        rw [hl]
        rw [Bool.eq_false_iff]
        intro hk
        rw [Bool.and_eq_true] at hk
        refine hcond ⟨?_, ?_⟩
        · simpa using hk.1
        · simpa using hk.2
      constructor
      · intro hmem
        have := ((hadds r).mp hmem).2
        rw [hkeep] at this
        exact Bool.false_ne_true this
      · rw [hkept l]
        unfold keepLocalTx
        rw [Bool.not_eq_true', List.any_eq_false]
        constructor
        · intro hc x hx
          have := hc.2 x hx
          simpa using this
        · intro hc
          refine ⟨hlmem, fun x hx => ?_⟩
          simpa using hc x hx
  · intro hnone
    have hkeep : keepRemoteTx localTxs address r = true := by
      unfold keepRemoteTx
      rw [hnone]
    exact (hadds r).mpr ⟨hr, hkeep⟩

/-- C1 witness: a concrete unmatched remote entry is added to the merged
result of a run with no local records. -/
theorem c1_merge_precedence_witness :
    c1Unmatched ∈ (mergeTxs [] "0xaa" [c1Unmatched]).2 :=
  (c1_merge_precedence [] [c1Unmatched] "0xaa" c1Unmatched (by decide)).2 (by decide)

theorem find?_id_facts (transactions : List TransactionMeta) (transactionID : String)
    (m : TransactionMeta)
    (hfind : transactions.find? (fun t => t.id == transactionID) = some m) :
    m ∈ transactions ∧ m.id = transactionID :=
  ⟨List.mem_of_find?_eq_some hfind, by simpa using List.find?_some hfind⟩

theorem spliceOutFirstById_id_ne (transactions : List TransactionMeta) (i : String)
    (hids : (transactions.map (fun t => t.id)).Nodup) :
    ∀ t ∈ spliceOutFirstById transactions i, t.id ≠ i := by
  induction transactions with
  | nil =>
    intro t ht
    simp [spliceOutFirstById] at ht
  | cons a ts ih =>
    intro t ht
    rw [List.map_cons, List.nodup_cons] at hids
    by_cases ha : (a.id == i) = true
    · have hsp : spliceOutFirstById (a :: ts) i = ts := by
        simp [spliceOutFirstById, ha]
      rw [hsp] at ht
      intro hti
      apply hids.1
      have hai : a.id = i := by simpa using ha
      rw [hai, ← hti]
      exact List.mem_map.mpr ⟨t, ht, rfl⟩
    · have hsp : spliceOutFirstById (a :: ts) i = a :: spliceOutFirstById ts i := by
        simp [spliceOutFirstById, ha]
      rw [hsp] at ht
      rcases List.mem_cons.mp ht with h | h
      · subst h
        simpa using ha
      · exact ih hids.2 t h

/-- C5: with the record present, ids unique and a signer configured,
stopTransaction returns without throwing a zero-value self-transfer from the
original sender that reuses the original nonce, with the gas price the floor
of 1.5 times the original, and speedUpTransaction rebroadcasts the original
recipient, value and data with the gas price the floor of 1.1 times the
original; both splice the original record out, push the replacement with the
fresh id and the statuses cancelSubmitted and accelerateSubmitted, and leave
no record with the original id in the Store. -/
theorem c5_fee_bump_replacements (transactions : List TransactionMeta)
    (transactionID : String) (m : TransactionMeta) (p q : BumpParams)
    (hfind : transactions.find? (fun t => t.id == transactionID) = some m)
    (hids : (transactions.map (fun t => t.id)).Nodup)
    (hp : p.newId ∉ transactions.map (fun t => t.id))
    (hq : q.newId ∉ transactions.map (fun t => t.id)) :
    ((stopTransaction transactions transactionID true p).thrown = none ∧
     ∃ n, (stopTransaction transactions transactionID true p).transactions =
         spliceOutFirstById transactions transactionID ++ [n] ∧
       n.id = p.newId ∧
       n.status = TransactionStatus.cancelSubmitted ∧
       n.transaction.fromAddr = m.transaction.fromAddr ∧
       n.transaction.toAddr = some m.transaction.fromAddr ∧
       n.transaction.value = some "0x0" ∧
       n.transaction.nonce = m.transaction.nonce ∧
       jsParseIntHex (n.transaction.gasPrice.getD "") =
         jsParseIntHex (m.transaction.gasPrice.getD "0x0") * 3 / 2 ∧
       (∀ t ∈ (stopTransaction transactions transactionID true p).transactions,
         t.id ≠ transactionID)) ∧
    ((speedUpTransaction transactions transactionID true q).thrown = none ∧
     ∃ n, (speedUpTransaction transactions transactionID true q).transactions =
         spliceOutFirstById transactions transactionID ++ [n] ∧
       n.id = q.newId ∧
       n.status = TransactionStatus.accelerateSubmitted ∧
       n.transaction.toAddr = m.transaction.toAddr ∧
       n.transaction.value = m.transaction.value ∧
       n.transaction.data = m.transaction.data ∧
       n.transaction.nonce = m.transaction.nonce ∧
       jsParseIntHex (n.transaction.gasPrice.getD "") =
         jsParseIntHex (m.transaction.gasPrice.getD "0x0") * 11 / 10 ∧
       (∀ t ∈ (speedUpTransaction transactions transactionID true q).transactions,
         t.id ≠ transactionID)) := by
  obtain ⟨hmmem, hmid⟩ := find?_id_facts transactions transactionID m hfind
  have htid : transactionID ∈ transactions.map (fun t => t.id) := by
    rw [← hmid]
    exact List.mem_map.mpr ⟨m, hmmem, rfl⟩
  have hpne : p.newId ≠ transactionID := fun hcc => hp (hcc ▸ htid)
  have hqne : q.newId ≠ transactionID := fun hcc => hq (hcc ▸ htid)
  have hsplice := spliceOutFirstById_id_ne transactions transactionID hids
  have hstop : (stopTransaction transactions transactionID true p).transactions =
      spliceOutFirstById transactions transactionID ++ [cancelReplacement m p] := by
    simp [stopTransaction, hfind]
  have hspeed : (speedUpTransaction transactions transactionID true q).transactions =
      spliceOutFirstById transactions transactionID ++ [speedUpReplacement m q] := by
    simp [speedUpTransaction, hfind]
  constructor
  · refine ⟨by simp [stopTransaction, hfind],
      cancelReplacement m p, hstop, rfl, rfl, rfl, rfl, rfl, rfl, ?_, ?_⟩
    · exact jsParseIntHex_roundtrip _
    · intro t ht
      rw [hstop] at ht
      rcases List.mem_append.mp ht with h | h
      · exact hsplice t h
      · rw [List.mem_singleton] at h
        subst h
        simpa using hpne
  · refine ⟨by simp [speedUpTransaction, hfind],
      speedUpReplacement m q, hspeed, rfl, rfl, rfl, rfl, rfl, rfl, ?_, ?_⟩
    · exact jsParseIntHex_roundtrip _
    · intro t ht
      rw [hspeed] at ht
      rcases List.mem_append.mp ht with h | h
      · exact hsplice t h
      · rw [List.mem_singleton] at h
        subst h
        simpa using hqne

/-- C5 witness: a concrete one-record Store; both fee-bump runs return
without throwing and leave no record with the original id. -/
theorem c5_fee_bump_replacements_witness :
    (stopTransaction [w5Meta] "a" true w5StopParams).thrown = none ∧
    (speedUpTransaction [w5Meta] "a" true w5SpeedParams).thrown = none ∧
    (∀ t ∈ (stopTransaction [w5Meta] "a" true w5StopParams).transactions,
      t.id ≠ "a") ∧
    (∀ t ∈ (speedUpTransaction [w5Meta] "a" true w5SpeedParams).transactions,
      t.id ≠ "a") := by
  have h := c5_fee_bump_replacements [w5Meta] "a" w5Meta w5StopParams w5SpeedParams
    (by decide) (by decide) (by decide) (by decide)
  obtain ⟨⟨h1, n1, hn1⟩, h2, n2, hn2⟩ := h
  exact ⟨h1, h2, hn1.2.2.2.2.2.2.2.2, hn2.2.2.2.2.2.2.2.2⟩

theorem updateTransaction_mem (transactions : List TransactionMeta)
    (tm t0 : TransactionMeta) (ht0 : t0 ∈ transactions) (hid : t0.id = tm.id) :
    tm ∈ updateTransaction transactions tm := by
  induction transactions with
  | nil => simp at ht0
  | cons a ts ih =>
    by_cases ha : (a.id == tm.id) = true
    · have hstep : updateTransaction (a :: ts) tm = tm :: ts := by
        simp [updateTransaction, ha]
      rw [hstep]
      exact List.mem_cons_self _ _
    · have hstep : updateTransaction (a :: ts) tm = a :: updateTransaction ts tm := by
        simp [updateTransaction, ha]
      rw [hstep]
      rcases List.mem_cons.mp ht0 with h | h
      · exfalso
        apply ha
        cases h
        simp [hid]
      · exact List.mem_cons_of_mem _ (ih h)

theorem approveAfterNonce_spec (transactions : List TransactionMeta)
    (m : TransactionMeta) (txNonce : String) (chainId : Nat)
    (sr : Except String Unit) (raw : String) (srr : Except String String)
    (hmmem : m ∈ transactions) :
    (approveAfterNonce transactions m txNonce chainId sr raw srr).raised = none ∧
    1 ≤ (approveAfterNonce transactions m txNonce chainId sr raw srr).releaseCount ∧
    (∀ e, (approveAfterNonce transactions m txNonce chainId sr raw srr).caught = some e →
      ∃ fm, (approveAfterNonce transactions m txNonce chainId sr raw srr).events =
          [(m.id ++ ":finished", fm)] ∧
        fm.status = TransactionStatus.failed ∧
        fm.error = some e ∧
        fm ∈ (approveAfterNonce transactions m txNonce chainId sr raw srr).transactions) := by
  cases sr with
  | error e0 =>
    refine ⟨rfl, Nat.le_refl 1, ?_⟩
    intro e he
    have he2 : e0 = e := Option.some.inj he
    subst he2
    refine ⟨failedCopy (approvedStage m txNonce chainId) e0, rfl, rfl, rfl, ?_⟩
    exact updateTransaction_mem transactions _ m hmmem rfl
  | ok u =>
    cases srr with
    | error e0 =>
      refine ⟨rfl, Nat.le_refl 1, ?_⟩
      intro e he
      have he2 : e0 = e := Option.some.inj he
      subst he2
      have h1 : signedStage (approvedStage m txNonce chainId) ∈
          updateTransaction transactions (signedStage (approvedStage m txNonce chainId)) :=
        updateTransaction_mem transactions _ m hmmem rfl
      have h2 : rawStage (signedStage (approvedStage m txNonce chainId)) raw ∈
          updateTransaction
            (updateTransaction transactions (signedStage (approvedStage m txNonce chainId)))
            (rawStage (signedStage (approvedStage m txNonce chainId)) raw) :=
        updateTransaction_mem _ _ _ h1 rfl
      refine ⟨failedCopy (rawStage (signedStage (approvedStage m txNonce chainId)) raw) e0,
        rfl, rfl, rfl, ?_⟩
      exact updateTransaction_mem _ _ _ h2 rfl
    | ok transactionHash =>
      refine ⟨rfl, Nat.le_refl 1, ?_⟩
      intro e he
      exact absurd he (by simp [approveAfterNonce])

/-- C6 counterexample: with an id absent from the Store, the record lookup
and the destructuring of its transaction run after the mutex acquire and
before the try block, so the raised TypeError escapes approveTransaction and
the release function never runs; the claim states the lock is released on
every exit path. -/
theorem c6_counterexample :
    (approveTransaction [] "tx-1" {}).raised ≠ none ∧
    (approveTransaction [] "tx-1" {}).releaseCount = 0 ∧
    (approveTransaction [] "tx-1" {}).transactions = [] ∧
    (approveTransaction [] "tx-1" {}).events = [] := by
  decide

/-- C6, amended: for every approveTransaction run on an id present in the
Store, no exception escapes, the mutex release function runs at least once
on every exit path, and every exception raised inside the try block is
caught and leads to the record transitioning to failed with the captured
error attached, a finished event keyed by the transaction id carrying that
failed record, and the failed record stored; when the id is absent the
lookup raises before the try block and the lock is not released. -/
theorem c6_pipeline_failure_handling (transactions : List TransactionMeta)
    (transactionID : String) (o : ApproveOracle) (m : TransactionMeta)
    (hfind : transactions.find? (fun t => t.id == transactionID) = some m) :
    (approveTransaction transactions transactionID o).raised = none ∧
    1 ≤ (approveTransaction transactions transactionID o).releaseCount ∧
    (∀ e, (approveTransaction transactions transactionID o).caught = some e →
      ∃ fm, (approveTransaction transactions transactionID o).events =
          [(transactionID ++ ":finished", fm)] ∧
        fm.status = TransactionStatus.failed ∧
        fm.error = some e ∧
        fm ∈ (approveTransaction transactions transactionID o).transactions) := by
  obtain ⟨hmmem, hmid⟩ := find?_id_facts transactions transactionID m hfind
  obtain ⟨cid, sd, txc, sr, raw, srr⟩ := o
  cases sd with
  | false =>
    have hred : approveTransaction transactions transactionID
        ⟨cid, false, txc, sr, raw, srr⟩ =
        { transactions := (failTransaction transactions m "No sign method defined.").1,
          events := [(failTransaction transactions m "No sign method defined.").2],
          releaseCount := 2, raised := none, caught := none } := by
      simp [approveTransaction, hfind]
    rw [hred]
    refine ⟨rfl, Nat.le_succ 1, ?_⟩
    intro e he
    simp at he
  | true =>
    cases cid with
    | none =>
      have hred : approveTransaction transactions transactionID
          ⟨none, true, txc, sr, raw, srr⟩ =
          { transactions := (failTransaction transactions m "No chainId defined.").1,
            events := [(failTransaction transactions m "No chainId defined.").2],
            releaseCount := 2, raised := none, caught := none } := by
        simp [approveTransaction, hfind, jsFalsyStrOpt, jsTruthyStrOpt]
      rw [hred]
      refine ⟨rfl, Nat.le_succ 1, ?_⟩
      intro e he
      simp at he
    | some cidv =>
      by_cases hempty : cidv = ""
      · subst hempty
        have hred : approveTransaction transactions transactionID
            ⟨some "", true, txc, sr, raw, srr⟩ =
            { transactions := (failTransaction transactions m "No chainId defined.").1,
              events := [(failTransaction transactions m "No chainId defined.").2],
              releaseCount := 2, raised := none, caught := none } := by
          simp [approveTransaction, hfind, jsFalsyStrOpt, jsTruthyStrOpt]
        rw [hred]
        refine ⟨rfl, Nat.le_succ 1, ?_⟩
        intro e he
        simp at he
      · have hb : jsFalsyStrOpt (some cidv) = false := by
          simp [jsFalsyStrOpt, jsTruthyStrOpt, hempty]
        cases hnon : m.transaction.nonce with
        | none =>
          cases txc with
          | error e0 =>
            have hred : approveTransaction transactions transactionID
                ⟨some cidv, true, Except.error e0, sr, raw, srr⟩ =
                { transactions := (failTransaction transactions m e0).1,
                  events := [(failTransaction transactions m e0).2],
                  releaseCount := 1, raised := none, caught := some e0 } := by
              simp [approveTransaction, hfind, hb, hnon]
            rw [hred]
            refine ⟨rfl, Nat.le_refl 1, ?_⟩
            intro e he
            have he2 : e0 = e := Option.some.inj he
            subst he2
            refine ⟨failedCopy m e0, by simp [failTransaction, hmid], rfl, rfl, ?_⟩
            exact updateTransaction_mem transactions _ m hmmem rfl
          | ok nn =>
            have hred : approveTransaction transactions transactionID
                ⟨some cidv, true, Except.ok nn, sr, raw, srr⟩ =
                approveAfterNonce transactions m nn (jsParseIntHex cidv) sr raw srr := by
              simp [approveTransaction, hfind, hb, hnon]
            rw [hred]
            have h := approveAfterNonce_spec transactions m nn
              (jsParseIntHex cidv) sr raw srr hmmem
            rw [hmid] at h
            exact h
        | some s =>
          by_cases hs : (s != "") = true
          · have hred : approveTransaction transactions transactionID
                ⟨some cidv, true, txc, sr, raw, srr⟩ =
                approveAfterNonce transactions m s (jsParseIntHex cidv) sr raw srr := by
              simp [approveTransaction, hfind, hb, hnon, hs]
            rw [hred]
            have h := approveAfterNonce_spec transactions m s
              (jsParseIntHex cidv) sr raw srr hmmem
            rw [hmid] at h
            exact h
          · rw [Bool.not_eq_true] at hs
            cases txc with
            | error e0 =>
              have hred : approveTransaction transactions transactionID
                  ⟨some cidv, true, Except.error e0, sr, raw, srr⟩ =
                  { transactions := (failTransaction transactions m e0).1,
                    events := [(failTransaction transactions m e0).2],
                    releaseCount := 1, raised := none, caught := some e0 } := by
                simp [approveTransaction, hfind, hb, hnon, hs]
              rw [hred]
              refine ⟨rfl, Nat.le_refl 1, ?_⟩
              intro e he
              have he2 : e0 = e := Option.some.inj he
              subst he2
              refine ⟨failedCopy m e0, by simp [failTransaction, hmid], rfl, rfl, ?_⟩
              exact updateTransaction_mem transactions _ m hmmem rfl
            | ok nn =>
              have hred : approveTransaction transactions transactionID
                  ⟨some cidv, true, Except.ok nn, sr, raw, srr⟩ =
                  approveAfterNonce transactions m nn (jsParseIntHex cidv) sr raw srr := by
                simp [approveTransaction, hfind, hb, hnon, hs]
              rw [hred]
              have h := approveAfterNonce_spec transactions m nn
                (jsParseIntHex cidv) sr raw srr hmmem
              rw [hmid] at h
              exact h

/-- C6 witness: on a concrete one-record Store with a configured signer, a
sign delegate that raises leads to the failed record with the error
attached, the finished event, and the failed record stored. -/
theorem c6_pipeline_failure_handling_witness :
    ∃ fm, (approveTransaction [w6Meta] "t6" w6Oracle).events =
        [("t6" ++ ":finished", fm)] ∧
      fm.status = TransactionStatus.failed ∧
      fm.error = some "sign failed" ∧
      fm ∈ (approveTransaction [w6Meta] "t6" w6Oracle).transactions :=
  (c6_pipeline_failure_handling [w6Meta] "t6" w6Oracle w6Meta (by decide)).2.2
    "sign failed" (by decide)

theorem estimateGasTail_calls (tx : TxTransaction) (gasPrice : String)
    (calls2 : List EthQueryCall) (o : EstimateGasOracle) :
    (estimateGasTail tx gasPrice calls2 o).2 =
      calls2 ++ [EthQueryCall.estimateGasQ (prepareEstimateTx tx o)] := by
  unfold estimateGasTail
  dsimp only
  split
  · rfl
  · split
    · rfl
    · rfl

theorem estimateGasTail_spec (tx : TxTransaction) (gasPrice : String)
    (calls2 : List EthQueryCall) (o : EstimateGasOracle) :
    (EthQueryCall.estimateGasQ (prepareEstimateTx tx o) ∈
        (estimateGasTail tx gasPrice calls2 o).2 ∧
      (prepareEstimateTx tx o).gas =
        some (bnToHexStr (hexToBN o.blockGasLimit * 19 / 20))) ∧
    jsParseIntHex (estimateGasTail tx gasPrice calls2 o).1.1 =
      (if hexToBN o.gasEstimate > hexToBN o.blockGasLimit * 9 / 10 ∨
          o.isCustomNetwork = true
       then hexToBN o.gasEstimate
       else if hexToBN o.gasEstimate * 3 / 2 < hexToBN o.blockGasLimit * 9 / 10
       then hexToBN o.gasEstimate * 3 / 2
       else hexToBN o.blockGasLimit * 9 / 10) := by
  refine ⟨⟨?_, rfl⟩, ?_⟩
  · rw [estimateGasTail_calls]
    simp
  · by_cases h1 : hexToBN o.gasEstimate > hexToBN o.blockGasLimit * 9 / 10 ∨
        o.isCustomNetwork = true
    · have hb : (decide (hexToBN o.gasEstimate >
          bnMulnFrac (hexToBN o.blockGasLimit) 9 10) || o.isCustomNetwork) = true := by
        rcases h1 with h | h
        · simp [bnMulnFrac]
          exact Or.inl h
        · simp [h]
      have hred : (estimateGasTail tx gasPrice calls2 o).1.1 = addHexPfx o.gasEstimate := by
        unfold estimateGasTail
        simp only [hb, if_true]
      rw [hred, if_pos h1]
      exact jsParseIntHex_addHexPfx o.gasEstimate
    · have hb : (decide (hexToBN o.gasEstimate >
          bnMulnFrac (hexToBN o.blockGasLimit) 9 10) || o.isCustomNetwork) = false := by
        rw [Bool.or_eq_false_iff]
        rw [not_or] at h1
        constructor
        · simpa [bnMulnFrac] using h1.1
        · simpa using h1.2
      rw [if_neg h1]
      by_cases h2 : hexToBN o.gasEstimate * 3 / 2 < hexToBN o.blockGasLimit * 9 / 10
      · have hb2 : decide (bnMulnFrac (hexToBN o.gasEstimate) 3 2 <
            bnMulnFrac (hexToBN o.blockGasLimit) 9 10) = true := by
          simpa [bnMulnFrac] using h2
        have hred : (estimateGasTail tx gasPrice calls2 o).1.1 =
            addHexPfx (bnToHexStr (bnMulnFrac (hexToBN o.gasEstimate) 3 2)) := by
          unfold estimateGasTail
          simp only [hb, hb2, if_true, if_false, Bool.false_eq_true]
        rw [hred, if_pos h2, jsParseIntHex_addHexPfx]
        exact jsParseIntHex_roundtrip _
      · have hb2 : decide (bnMulnFrac (hexToBN o.gasEstimate) 3 2 <
            bnMulnFrac (hexToBN o.blockGasLimit) 9 10) = false := by
          simpa [bnMulnFrac] using h2
        have hred : (estimateGasTail tx gasPrice calls2 o).1.1 =
            addHexPfx (bnToHexStr (bnMulnFrac (hexToBN o.blockGasLimit) 9 10)) := by
          unfold estimateGasTail
          simp only [hb, hb2, if_false, Bool.false_eq_true]
        rw [hred, if_neg h2, jsParseIntHex_addHexPfx]
        exact jsParseIntHex_roundtrip _

/-- C4: for every draft with no caller-supplied gas that reaches the
estimation branch, the Gas Estimator sends the network estimate query a
draft whose working gas is 95 percent of the latest block gas limit, and
returns the raw estimate when it exceeds 90 percent of the block gas limit
or the network is custom, else the estimate padded by 1.5 when the padded
value stays below that cap, else the cap, all computed in the floor integer
BN arithmetic of the embedding. -/
theorem c4_estimation_policy (transaction : TxTransaction) (o : EstimateGasOracle)
    (hg : transaction.gas = none)
    (hbranch : intrinsicCheck transaction.toAddr transaction.data
        (if jsTruthyStrOpt transaction.toAddr then
          some (o.codeAt (transaction.toAddr.getD ""))
        else none) o.isCustomNetwork = false) :
    (∃ preparedTx, EthQueryCall.estimateGasQ preparedTx ∈ (estimateGas transaction o).2 ∧
      preparedTx.gas = some (bnToHexStr (hexToBN o.blockGasLimit * 19 / 20))) ∧
    jsParseIntHex (estimateGas transaction o).1.1 =
      (if hexToBN o.gasEstimate > hexToBN o.blockGasLimit * 9 / 10 ∨
          o.isCustomNetwork = true
       then hexToBN o.gasEstimate
       else if hexToBN o.gasEstimate * 3 / 2 < hexToBN o.blockGasLimit * 9 / 10
       then hexToBN o.gasEstimate * 3 / 2
       else hexToBN o.blockGasLimit * 9 / 10) := by
  have hex : ∃ g c, estimateGas transaction o = estimateGasTail transaction g c o := by
    rcases hgp : transaction.gasPrice with _ | p
    · exact ⟨o.networkGasPrice,
        EthQueryCall.gasPriceQ :: EthQueryCall.getBlockByNumberQ ::
          (if jsTruthyStrOpt transaction.toAddr then
            [EthQueryCall.getCodeQ (transaction.toAddr.getD "")] else []),
        by simp [estimateGas, hg, hgp, hbranch]⟩
    · exact ⟨p,
        EthQueryCall.getBlockByNumberQ ::
          (if jsTruthyStrOpt transaction.toAddr then
            [EthQueryCall.getCodeQ (transaction.toAddr.getD "")] else []),
        by simp [estimateGas, hg, hgp, hbranch]⟩
  obtain ⟨g, c, hred⟩ := hex
  rw [hred]
  have hspec := estimateGasTail_spec transaction g c o
  exact ⟨⟨prepareEstimateTx transaction o, hspec.1.1, hspec.1.2⟩, hspec.2⟩

/-- C4 witness: concrete draft with a contract destination and call data,
block gas limit 100 and estimate 10: the padded estimate 15 stays below the
cap 90 and is returned. -/
theorem c4_estimation_policy_witness :
    (∃ preparedTx, EthQueryCall.estimateGasQ preparedTx ∈ (estimateGas w4Tx w4Oracle).2 ∧
      preparedTx.gas = some (bnToHexStr (hexToBN w4Oracle.blockGasLimit * 19 / 20))) ∧
    jsParseIntHex (estimateGas w4Tx w4Oracle).1.1 =
      (if hexToBN w4Oracle.gasEstimate > hexToBN w4Oracle.blockGasLimit * 9 / 10 ∨
          w4Oracle.isCustomNetwork = true
       then hexToBN w4Oracle.gasEstimate
       else if hexToBN w4Oracle.gasEstimate * 3 / 2 <
          hexToBN w4Oracle.blockGasLimit * 9 / 10
       then hexToBN w4Oracle.gasEstimate * 3 / 2
       else hexToBN w4Oracle.blockGasLimit * 9 / 10) :=
  c4_estimation_policy w4Tx w4Oracle rfl (by decide)
